import Mathlib

/-!
# Verification of the epoch habit tracker period-bucketing and aggregation code

This file shallowly embeds the aggregation-relevant parts of the repository:

* the browser aggregation code in `static/js/demo.js`
  (`totalsByDate`, `sumToday`, `renderOverview`, `renderHabits`);
* the Go handler conversion code in `internal/handlers/handlers.go`
  (`habitToFrontend`, `logToFrontend`, `handleHabitCreateAPI`,
  `handleLogsListAPI`, `handleLogCreateAPI`) and
  `internal/handlers/templates.go` (`currentDateTimeInTZ`);
* the `local_day` computation of `internal/models/repository.go`
  (`CreateHabitLog`);
* the rolling-length configuration checks declared by the SQL schema.

JavaScript `Number` and Go `float64` arithmetic are modelled exactly as
IEEE 754 binary64 round-to-nearest, ties-to-even over `Rat`
(no overflow or subnormals arise at the magnitudes the code handles).
Instants are minutes since the Unix epoch; calendar days are day indices
since the epoch.
-/

/-! ## IEEE 754 binary64 model over the rationals -/

/-- Normalize a positive rational into the binade `[2^52, 2^53)`,
returning the scaled significand together with the base-two exponent.
The fuel bounds the number of doubling or halving steps; 5000 covers
every magnitude the embedded code can produce. -/
def floatNorm : Nat → Rat → Int → Rat × Int
  | 0, q, e => (q, e)
  | fuel + 1, q, e =>
    if q < 2 ^ 52 then floatNorm fuel (q * 2) (e - 1)
    else if 2 ^ 53 ≤ q then floatNorm fuel (q / 2) (e + 1)
    else (q, e)

/-- Round a rational to an integer, half to even. -/
def roundHalfEven (q : Rat) : Int :=
  if q - ⌊q⌋ < 1 / 2 then ⌊q⌋
  else if 1 / 2 < q - ⌊q⌋ then ⌊q⌋ + 1
  else if ⌊q⌋ % 2 = 0 then ⌊q⌋ else ⌊q⌋ + 1

/-- Two to an integer power, as a rational. -/
def pow2 (e : Int) : Rat := (2 : Rat) ^ e

/-- The binary64 value nearest to a positive rational. -/
def toFloat64Pos (q : Rat) : Rat :=
  let p := floatNorm 5000 q 0
  (roundHalfEven p.1 : Rat) * pow2 p.2

/-- The binary64 value nearest to a rational (round to nearest, ties to
even).  This models the `decimal.Decimal.Float64()` conversion in the Go
handlers and the rounding step of every JavaScript `Number` operation. -/
def toFloat64 (q : Rat) : Rat :=
  if q = 0 then 0
  else if q < 0 then -(toFloat64Pos (-q))
  else toFloat64Pos q

/-- JavaScript `Number` addition: exact sum, rounded to binary64. -/
def jsAdd (a b : Rat) : Rat := toFloat64 (a + b)

/-- JavaScript `Number` division (only ever applied by the embedded code
with a nonzero divisor): exact quotient, rounded to binary64. -/
def jsDiv (a b : Rat) : Rat := toFloat64 (a / b)

/-- JavaScript `Number` multiplication: exact product, rounded to binary64. -/
def jsMul (a b : Rat) : Rat := toFloat64 (a * b)

theorem pow2_zero : pow2 0 = 1 := by simp [pow2]

theorem pow2_add_one (e : Int) : pow2 (e + 1) = 2 * pow2 e := by
  unfold pow2
  rw [zpow_add_one₀ (by norm_num : (2 : Rat) ≠ 0)]
  ring

/-- The normalization loop preserves the represented value. -/
theorem floatNorm_inv (fuel : Nat) :
    ∀ (q : Rat) (e : Int),
      (floatNorm fuel q e).1 * pow2 (floatNorm fuel q e).2 = q * pow2 e := by
  induction fuel with
  | zero => intro q e; rfl
  | succ n ih =>
    intro q e
    unfold floatNorm
    by_cases h1 : q < 2 ^ 52
    · simp only [h1, if_true]
      rw [ih]
      have : pow2 e = 2 * pow2 (e - 1) := by
        have := pow2_add_one (e - 1)
        simpa using this
      rw [this]; ring
    · simp only [h1, if_false]
      by_cases h2 : (2 : Rat) ^ 53 ≤ q
      · simp only [h2, if_true]
        rw [ih]
        have : pow2 (e + 1) = 2 * pow2 e := pow2_add_one e
        rw [this]; ring
      · simp only [h2, if_false]

/-- On a natural number in `[1, 2^53)`, given enough fuel, normalization
lands on a natural significand in `[2^52, 2^53)`. -/
theorem floatNorm_nat (fuel : Nat) :
    ∀ (n : Nat) (e : Int),
      1 ≤ n → (n : Rat) < 2 ^ 53 → (2 : Rat) ^ 52 ≤ (n : Rat) * 2 ^ fuel →
      ∃ m : Nat, (floatNorm fuel (n : Rat) e).1 = (m : Rat) ∧
        (2 : Rat) ^ 52 ≤ (m : Rat) ∧ (m : Rat) < 2 ^ 53 := by
  induction fuel with
  | zero =>
    intro n e h1 h2 h3
    refine ⟨n, rfl, ?_, h2⟩
    simpa using h3
  | succ k ih =>
    intro n e h1 h2 h3
    unfold floatNorm
    by_cases hlt : (n : Rat) < 2 ^ 52
    · simp only [hlt, if_true]
      have hcast : (n : Rat) * 2 = ((2 * n : Nat) : Rat) := by push_cast; ring
      rw [hcast]
      refine ih (2 * n) (e - 1) (by omega) ?_ ?_
      · push_cast
        calc (2 : Rat) * n < 2 * 2 ^ 52 := by linarith
        _ = 2 ^ 53 := by norm_num
      · push_cast
        calc (2 : Rat) ^ 52 ≤ (n : Rat) * 2 ^ (k + 1) := h3
        _ = 2 * (n : Rat) * 2 ^ k := by ring
    · simp only [hlt, if_false]
      have hle : ¬ ((2 : Rat) ^ 53 ≤ (n : Rat)) := by linarith
      simp only [hle, if_false]
      exact ⟨n, rfl, le_of_not_lt hlt, h2⟩

theorem roundHalfEven_nat (m : Nat) : roundHalfEven (m : Rat) = (m : Int) := by
  unfold roundHalfEven
  have hfl : ⌊(m : Rat)⌋ = (m : Int) := Int.floor_natCast m
  rw [hfl]
  have : (m : Rat) - ((m : Int) : Rat) = 0 := by push_cast; ring
  rw [this]
  norm_num

/-- Every natural number below `2^53` is an exact binary64 value. -/
theorem toFloat64_nat (n : Nat) (h : (n : Rat) < 2 ^ 53) :
    toFloat64 (n : Rat) = (n : Rat) := by
  unfold toFloat64
  by_cases h0 : (n : Rat) = 0
  · simp [h0]
  · have hn1 : 1 ≤ n := by
      by_contra hc
      exact h0 (by simp [Nat.lt_one_iff.mp (not_le.mp hc)])
    have hpos : ¬ ((n : Rat) < 0) := not_lt.mpr (by positivity)
    simp only [h0, if_false, hpos, if_false]
    unfold toFloat64Pos
    show (roundHalfEven (floatNorm 5000 (n : Rat) 0).1 : Rat) *
        pow2 (floatNorm 5000 (n : Rat) 0).2 = (n : Rat)
    have hfuel : (2 : Rat) ^ 52 ≤ (n : Rat) * 2 ^ 5000 := by
      calc (2 : Rat) ^ 52 ≤ 2 ^ 5000 := by
            exact pow_le_pow_right₀ (by norm_num) (by norm_num)
      _ ≤ (n : Rat) * 2 ^ 5000 := by
            have : (1 : Rat) ≤ (n : Rat) := by exact_mod_cast hn1
            nlinarith [pow_pos (by norm_num : (0 : Rat) < 2) 5000]
    obtain ⟨m, hm, _, _⟩ := floatNorm_nat 5000 n 0 hn1 h hfuel
    rw [hm, roundHalfEven_nat m]
    have := floatNorm_inv 5000 (n : Rat) 0
    rw [hm] at this
    push_cast
    calc (m : Rat) * pow2 (floatNorm 5000 (n : Rat) 0).2
        = (n : Rat) * pow2 0 := this
    _ = (n : Rat) := by rw [pow2_zero]; ring

/-! ## Embedding of `static/js/demo.js`

Calendar days are integer day indices since the Unix epoch (the
`YYYY-MM-DD` key strings of the JavaScript code are in order-preserving
bijection with these indices).  The browser timezone is modelled by
`tzShift`, the constant difference between a local calendar day and the
UTC calendar date of its local midnight, as produced by
`d.toISOString().slice(0, 10)` on a `Date` holding local midnight
(`tzShift = -1` for zones east of Greenwich, `0` otherwise). -/

/-- A log entry as the browser state holds it: `habitId` string, the
UTC calendar date produced by `new Date(l.date).toISOString().slice(0, 10)`,
and the `qty` number (a binary64 value decoded from JSON). -/
structure JsLog where
  habitId : String
  dateKey : Int
  qty : Rat

/-- The filter `!habitId || l.habitId === habitId` shared by
`totalsByDate` and `sumToday` (a falsy `habitId` is `none`). -/
def matchesHabit (habitId : Option String) (l : JsLog) : Bool :=
  match habitId with
  | none => true
  | some h => l.habitId == h

/-- JavaScript `Map.has`, on an insertion-ordered association list. -/
def mapHas (m : List (Int × Rat)) (k : Int) : Bool :=
  m.any (fun p => p.1 == k)

/-- JavaScript `map.get(k) || 0` (an absent key reads as 0, and the
stored value 0 also reads as 0). -/
def mapGet (m : List (Int × Rat)) (k : Int) : Rat :=
  ((m.find? (fun p => p.1 == k)).map Prod.snd).getD 0

/-- JavaScript `Map.set`: overwrite in place when the key exists,
append otherwise. -/
def mapSet (m : List (Int × Rat)) (k : Int) (v : Rat) : List (Int × Rat) :=
  if mapHas m k then m.map (fun p => if p.1 == k then (k, v) else p)
  else m ++ [(k, v)]

/-- The local days visited by the seeding loop
`for (let i = days - 1; i >= 0; i--)` of `totalsByDate`, in iteration
order: `today - (days - 1), ..., today`. -/
def seedDays (today : Int) (days : Nat) : List Int :=
  (List.range days).map (fun j : Nat => today - ((days : Int) - 1 - (j : Int)))

/-- The body of the log loop of `totalsByDate`:
`if (map.has(dateKey)) map.set(dateKey, (map.get(dateKey) || 0) + Number(l.qty))`. -/
def logStep (m : List (Int × Rat)) (l : JsLog) : List (Int × Rat) :=
  if mapHas m l.dateKey then mapSet m l.dateKey (jsAdd (mapGet m l.dateKey) l.qty)
  else m

/-- `totalsByDate(habitId, days)` of demo.js: pre-seed one entry per day
with value 0 (keyed by the UTC date of local midnight), then add the
quantities of the matching logs onto existing keys only. -/
def totalsMap (tzShift today : Int) (days : Nat) (habitId : Option String)
    (logs : List JsLog) : List (Int × Rat) :=
  (logs.filter (matchesHabit habitId)).foldl logStep
    ((seedDays today days).foldl (fun m d => mapSet m (d + tzShift) 0) [])

/-- The `labels` array returned by `totalsByDate`: the map keys in
insertion order. -/
def totalsLabels (tzShift today : Int) (days : Nat) (habitId : Option String)
    (logs : List JsLog) : List Int :=
  (totalsMap tzShift today days habitId logs).map Prod.fst

/-- The `values` array returned by `totalsByDate`. -/
def totalsValues (tzShift today : Int) (days : Nat) (habitId : Option String)
    (logs : List JsLog) : List Rat :=
  (totalsMap tzShift today days habitId logs).map Prod.snd

/-- `sumToday(habitId)` of demo.js: filter the logs to the matching
habit and to entries whose date key equals today, then reduce with
JavaScript number addition starting from 0. -/
def sumToday (logs : List JsLog) (habitId : Option String) (today : Int) : Rat :=
  (logs.filter (fun l => matchesHabit habitId l && (l.dateKey == today))).foldl
    (fun a b => jsAdd a b.qty) 0

/-- The progress percentage of `renderOverview`:
`h.goal ? Math.min(100, (todayTotal / h.goal) * 100) : 0`. -/
def pctOverview (todayTotal goal : Rat) : Rat :=
  if goal = 0 then 0 else min 100 (jsMul (jsDiv todayTotal goal) 100)

/-- The progress-bar width of `renderHabits`:
`Math.min(100, (sumToday(h.id) / (h.goal || 1)) * 100)`. -/
def habitBarWidth (todaySum goal : Rat) : Rat :=
  min 100 (jsMul (jsDiv todaySum (if goal = 0 then 1 else goal)) 100)

/-! ## Structure of the `totalsByDate` map -/

theorem mapSet_fresh (m : List (Int × Rat)) (k : Int) (v : Rat)
    (h : mapHas m k = false) : mapSet m k v = m ++ [(k, v)] := by
  simp [mapSet, h]

theorem mapHas_append_single (m : List (Int × Rat)) (k k' : Int) (v : Rat) :
    mapHas (m ++ [(k', v)]) k = (mapHas m k || (k' == k)) := by
  simp [mapHas]

/-- Seeding with pairwise-distinct fresh keys appends the seeded entries
in iteration order. -/
theorem seedFold_eq (c : Int) (ds : List Int) :
    ∀ (m : List (Int × Rat)),
      (∀ d ∈ ds, mapHas m (d + c) = false) → List.Pairwise (· ≠ ·) ds →
      ds.foldl (fun m d => mapSet m (d + c) 0) m
        = m ++ ds.map (fun d => (d + c, 0)) := by
  induction ds with
  | nil => intro m _ _; simp
  | cons d ds ih =>
    intro m hfresh hpw
    have hd : mapHas m (d + c) = false := hfresh d (by simp)
    have hstep : mapSet m (d + c) 0 = m ++ [(d + c, 0)] := mapSet_fresh m _ _ hd
    have hpw' : List.Pairwise (· ≠ ·) ds := hpw.of_cons
    have hne : ∀ d' ∈ ds, d ≠ d' := by
      intro d' hd'
      exact (List.pairwise_cons.mp hpw).1 d' hd'
    have hfresh' : ∀ d' ∈ ds, mapHas (m ++ [(d + c, 0)]) (d' + c) = false := by
      intro d' hd'
      rw [mapHas_append_single]
      have h1 : mapHas m (d' + c) = false := hfresh d' (by simp [hd'])
      have h2 : ((d + c) == (d' + c)) = false := by
        have : d + c ≠ d' + c := by
          intro hcontra
          exact hne d' hd' (by omega)
        simpa using this
      simp [h1, h2]
    calc (d :: ds).foldl (fun m d => mapSet m (d + c) 0) m
        = ds.foldl (fun m d => mapSet m (d + c) 0) (m ++ [(d + c, 0)]) := by
          simp [List.foldl_cons, hstep]
    _ = (m ++ [(d + c, 0)]) ++ ds.map (fun d => (d + c, 0)) := ih _ hfresh' hpw'
    _ = m ++ ((d :: ds).map (fun d => (d + c, 0))) := by simp

theorem seedDays_eq (today : Int) (days : Nat) :
    seedDays today days
      = (List.range days).map (fun j : Nat => today - (days : Int) + 1 + (j : Int)) := by
  unfold seedDays
  apply List.map_congr_left
  intro j _
  ring

theorem seedDays_pairwise (today : Int) (days : Nat) :
    List.Pairwise (· ≠ ·) (seedDays today days) := by
  rw [seedDays_eq]
  refine (List.pairwise_lt_range days).map _ ?_
  intro a b hab hcontra
  omega

/-- The seeded map of `totalsByDate`, in closed form. -/
theorem seeded_eq (tzShift today : Int) (days : Nat) :
    (seedDays today days).foldl (fun m d => mapSet m (d + tzShift) 0) []
      = (seedDays today days).map (fun d => (d + tzShift, 0)) := by
  have := seedFold_eq tzShift (seedDays today days) []
      (by intro d _; simp [mapHas]) (seedDays_pairwise today days)
  simpa using this

/-- Replacing the value at an existing key leaves the key list unchanged. -/
theorem mapSet_keys_of_has (m : List (Int × Rat)) (k : Int) (v : Rat)
    (h : mapHas m k = true) :
    (mapSet m k v).map Prod.fst = m.map Prod.fst := by
  simp only [mapSet, h, if_true]
  rw [List.map_map]
  apply List.map_congr_left
  intro p _
  simp only [Function.comp_apply]
  by_cases hp : p.1 = k
  · have hbt : (p.1 == k) = true := by simpa using hp
    rw [if_pos hbt]
    simpa using hp.symm
  · have hbf : ¬ ((p.1 == k) = true) := by simpa using hp
    rw [if_neg hbf]

theorem logStep_keys (m : List (Int × Rat)) (l : JsLog) :
    (logStep m l).map Prod.fst = m.map Prod.fst := by
  unfold logStep
  by_cases h : mapHas m l.dateKey
  · simp only [h, if_true]
    exact mapSet_keys_of_has m _ _ h
  · simp [h]

theorem foldl_logStep_keys (ls : List JsLog) :
    ∀ (m : List (Int × Rat)),
      (ls.foldl logStep m).map Prod.fst = m.map Prod.fst := by
  induction ls with
  | nil => intro m; rfl
  | cons l ls ih =>
    intro m
    calc ((l :: ls).foldl logStep m).map Prod.fst
        = (ls.foldl logStep (logStep m l)).map Prod.fst := by simp [List.foldl_cons]
    _ = (logStep m l).map Prod.fst := ih _
    _ = m.map Prod.fst := logStep_keys m l

/-- The labels of `totalsByDate`, in closed form: one key per seeded
local day, in ascending order, regardless of the logs. -/
theorem totalsLabels_eq (tzShift today : Int) (days : Nat)
    (habitId : Option String) (logs : List JsLog) :
    totalsLabels tzShift today days habitId logs
      = (List.range days).map
          (fun j : Nat => today - (days : Int) + 1 + tzShift + (j : Int)) := by
  unfold totalsLabels totalsMap
  rw [foldl_logStep_keys, seeded_eq, List.map_map, seedDays_eq, List.map_map]
  apply List.map_congr_left
  intro j _
  simp only [Function.comp_apply]
  ring

/-- Overwriting the entry at one key does not move `find?` away from the
entry it finds for a different key. -/
theorem find?_overwrite_ne (k k' : Int) (v : Rat) (hne : k' ≠ k)
    (m : List (Int × Rat)) :
    Option.map Prod.snd
        ((m.map (fun p => if p.1 == k' then (k', v) else p)).find?
          (fun p => p.1 == k))
      = Option.map Prod.snd (m.find? (fun p => p.1 == k)) := by
  rw [List.find?_map]
  have hpred :
      ((fun p : Int × Rat => p.1 == k) ∘ fun p => if p.1 == k' then (k', v) else p)
        = fun p : Int × Rat => p.1 == k := by
    funext p
    by_cases hp : (p.1 == k') = true
    · have hp' : p.1 = k' := by simpa using hp
      simp [Function.comp_apply, hp, hp']
    · have hp2 : ¬ (p.1 = k') := by simpa using hp
      simp [Function.comp_apply, hp2]
  rw [hpred]
  cases hfind : m.find? (fun p => p.1 == k) with
  | none => simp
  | some p0 =>
    have hp0 : (p0.1 == k) = true :=
      @List.find?_some (Int × Rat) (fun p => p.1 == k) p0 m hfind
    have hp0' : p0.1 = k := by simpa using hp0
    have hne0 : ¬ (p0.1 = k') := by
      rw [hp0']; exact fun hc => hne hc.symm
    simp [hne0]

theorem mapGet_mapSet_ne (m : List (Int × Rat)) (k k' : Int) (v : Rat)
    (hne : k' ≠ k) : mapGet (mapSet m k' v) k = mapGet m k := by
  unfold mapSet
  by_cases h : mapHas m k'
  · simp only [h, if_true]
    unfold mapGet
    rw [find?_overwrite_ne k k' v hne m]
  · rw [if_neg h]
    unfold mapGet
    rw [List.find?_append]
    have hnil : List.find? (fun p => p.1 == k) [(k', v)] = none := by
      have hk : ((k' : Int) == k) = false := by simpa using hne
      simp [List.find?, hk]
    rw [hnil]
    cases List.find? (fun p => p.1 == k) m <;> rfl

/-- A log step touching a key other than `k` does not change the value
read at `k`. -/
theorem mapGet_logStep_ne (m : List (Int × Rat)) (l : JsLog) (k : Int)
    (hne : l.dateKey ≠ k) : mapGet (logStep m l) k = mapGet m k := by
  unfold logStep
  by_cases h : mapHas m l.dateKey
  · simp only [h, if_true]
    exact mapGet_mapSet_ne m k l.dateKey _ hne
  · simp [h]

theorem mapGet_foldl_logStep (ls : List JsLog) :
    ∀ (m : List (Int × Rat)) (k : Int),
      (∀ l ∈ ls, l.dateKey ≠ k) →
      mapGet (ls.foldl logStep m) k = mapGet m k := by
  induction ls with
  | nil => intro m k _; rfl
  | cons l ls ih =>
    intro m k hk
    calc mapGet ((l :: ls).foldl logStep m) k
        = mapGet (ls.foldl logStep (logStep m l)) k := by simp [List.foldl_cons]
    _ = mapGet (logStep m l) k := ih _ k (fun x hx => hk x (by simp [hx]))
    _ = mapGet m k := mapGet_logStep_ne m l k (hk l (by simp))

/-- Every seeded entry carries value 0, so any read of the seeded map
yields 0. -/
theorem mapGet_seeded (tzShift today : Int) (days : Nat) (k : Int) :
    mapGet ((seedDays today days).map (fun d => (d + tzShift, 0))) k = 0 := by
  unfold mapGet
  induction seedDays today days with
  | nil => rfl
  | cons d ds ih =>
    simp only [List.map_cons, List.find?]
    by_cases h : ((d + tzShift) == k) = true
    · simp [h]
    · have h1 : ((d + tzShift) == k) = false := by simpa using h
      simp only [h1]
      exact ih

/-! ## Exactness of the float64 sum on small integer quantities -/

theorem foldl_jsAdd_nat (ls : List JsLog) :
    ∀ (a : Rat), (∃ na : Nat, a = (na : Rat)) →
      (∀ l ∈ ls, ∃ n : Nat, l.qty = (n : Rat)) →
      a + (ls.map JsLog.qty).sum < 2 ^ 53 →
      ls.foldl (fun x b => jsAdd x b.qty) a = a + (ls.map JsLog.qty).sum := by
  induction ls with
  | nil => intro a _ _ _; simp
  | cons l ls ih =>
    intro a ⟨na, hna⟩ hq hbound
    obtain ⟨n, hn⟩ := hq l (by simp)
    have hsum_nonneg : 0 ≤ (ls.map JsLog.qty).sum := by
      apply List.sum_nonneg
      intro x hx
      obtain ⟨x0, hx0, hx1⟩ := List.mem_map.mp hx
      obtain ⟨nx, hnx⟩ := hq x0 (by simp [hx0])
      rw [← hx1, hnx]
      positivity
    have hstep : jsAdd a l.qty = a + l.qty := by
      unfold jsAdd
      have hcast : a + l.qty = ((na + n : Nat) : Rat) := by
        rw [hna, hn]; push_cast; ring
      rw [hcast]
      apply toFloat64_nat
      rw [← hcast]
      have hl : l.qty ≤ l.qty + (ls.map JsLog.qty).sum := by linarith
      have : a + l.qty ≤ a + (l.qty + (ls.map JsLog.qty).sum) := by linarith
      calc a + l.qty ≤ a + (l.qty + (ls.map JsLog.qty).sum) := this
      _ = a + ((l :: ls).map JsLog.qty).sum := by simp
      _ < 2 ^ 53 := hbound
    calc (l :: ls).foldl (fun x b => jsAdd x b.qty) a
        = ls.foldl (fun x b => jsAdd x b.qty) (jsAdd a l.qty) := by
          simp [List.foldl_cons]
    _ = ls.foldl (fun x b => jsAdd x b.qty) (a + l.qty) := by rw [hstep]
    _ = (a + l.qty) + (ls.map JsLog.qty).sum := by
          refine ih (a + l.qty) ⟨na + n, by rw [hna, hn]; push_cast; ring⟩
            (fun x hx => hq x (by simp [hx])) ?_
          have : a + (l.qty + (ls.map JsLog.qty).sum) < 2 ^ 53 := by
            calc a + (l.qty + (ls.map JsLog.qty).sum)
                = a + ((l :: ls).map JsLog.qty).sum := by simp
            _ < 2 ^ 53 := hbound
          linarith
    _ = a + ((l :: ls).map JsLog.qty).sum := by simp; ring

/-! ## Embedding of the Go handlers and models

`Location` models `*time.Location` as a fixed offset in minutes from
UTC; the timezone database consulted by `time.LoadLocation` is a
parameter `db : String → Option Location` (`none` models the error
return for an unresolvable identifier).  Formatting an instant in a
zone is modelled by its wall-clock value in minutes, which determines
the formatted string. -/

/-- A resolved timezone: a fixed offset in minutes from UTC. -/
structure Location where
  offsetMinutes : Int
deriving DecidableEq

/-- The UTC zone, `time.UTC`. -/
def utcLoc : Location := ⟨0⟩

/-- The wall-clock minutes of a UTC instant observed in a zone; the
`Format` calls of the Go code render exactly this value. -/
def wallClock (t : Int) (loc : Location) : Int := t + loc.offsetMinutes

/-- The calendar day (days since the epoch) containing a wall-clock
minute value. -/
def dayOfWall (w : Int) : Int := Int.fdiv w 1440

/-- `templates.go`, `currentDateTimeInTZ`: resolve the zone name; on
failure fall back to `time.Local` (modelled by `localZone`); format the
current instant in the chosen zone. -/
def currentDateTimeInTZ (db : String → Option Location) (localZone : Location)
    (now : Int) (tzName : String) : Int :=
  let loc := match db tzName with
    | some l => l
    | none => localZone
  wallClock now loc

/-- A runtime panic of the Go `time` package. -/
inductive GoPanic where
  | missingLocation
deriving DecidableEq

/-- `time.Time.In`: panics when the location is nil (which is what a
discarded `time.LoadLocation` error leaves behind). -/
def timeIn (t : Int) (loc : Option Location) : Except GoPanic Int :=
  match loc with
  | none => Except.error GoPanic.missingLocation
  | some l => Except.ok (wallClock t l)

/-- `time.ParseInLocation` on the zone-less layout `2006-01-02T15:04`:
interprets the parsed wall-clock value in the given location, reaching
`time.Date`, which panics when the location is nil. -/
def parseInLocation (wall : Int) (loc : Option Location) : Except GoPanic Int :=
  match loc with
  | none => Except.error GoPanic.missingLocation
  | some l => Except.ok (wall - l.offsetMinutes)

/-- `models.HabitLog` (handlers variant): UTC instant and a decimal
quantity (`NUMERIC(12,2)`, embedded as an exact rational). -/
structure HabitLogGo where
  id : Int
  habitId : Int
  occurredAt : Int
  quantity : Rat

/-- `handlers.FrontendLog`: the `Date` string is the wall-clock value in
the user zone, `Qty` the `float64` conversion of the decimal quantity. -/
structure FrontendLogGo where
  id : Int
  habitId : Int
  date : Int
  qty : Rat
deriving DecidableEq

/-- `handlers.go`, `logToFrontend`: `qty, _ := l.Quantity.Float64()` and
`occurredAtInUserTZ := l.OccurredAt.In(userTZ)`. -/
def logToFrontend (l : HabitLogGo) (userTZ : Option Location) :
    Except GoPanic FrontendLogGo := do
  let w ← timeIn l.occurredAt userTZ
  Except.ok { id := l.id, habitId := l.habitId, date := w,
              qty := toFloat64 l.quantity }

/-- `handlers.go`, `handleLogsListAPI`: `loc, _ := time.LoadLocation(user.TZ)`
(the error is discarded), then every fetched log is converted with
`logToFrontend(&l, loc)`. -/
def handleLogsListAPI (db : String → Option Location) (userTz : String)
    (allLogs : List HabitLogGo) : Except GoPanic (List FrontendLogGo) :=
  let loc := db userTz
  allLogs.mapM (fun l => logToFrontend l loc)

/-- `handlers.go`, `handleLogCreateAPI`: `loc, _ := time.LoadLocation(user.TZ)`,
`occurredAt, err := time.ParseInLocation(models.ToFrontEndFormat, req.Date, loc)`,
insert (the stored log receives a fresh id), then `logToFrontend(createdLog, loc)`. -/
def handleLogCreateAPI (db : String → Option Location) (userTz : String)
    (reqHabitId : Int) (reqDateWall : Int) (reqQty : Rat) (newId : Int) :
    Except GoPanic FrontendLogGo := do
  let loc := db userTz
  let occurredAt ← parseInLocation reqDateWall loc
  logToFrontend
    { id := newId, habitId := reqHabitId, occurredAt := occurredAt,
      quantity := reqQty } loc

/-- `models.AggKind`. -/
inductive AggKind where
  | sum
  | boolean
  | count
deriving DecidableEq

/-- `models.PeriodType`. -/
inductive PeriodType where
  | daily
  | weekly
  | monthly
  | rolling
deriving DecidableEq

/-- `models.Habit` (handlers variant), the fields set by habit creation. -/
structure HabitGo where
  userId : Int
  name : String
  unitLabel : Option String
  agg : AggKind
  targetPerPeriod : Rat
  perLogDefaultQty : Rat
  period : PeriodType
  weekStartDOW : Int
  monthAnchorDay : Int
  rollingLenDays : Option Int
  anchorDate : Int
  isActive : Bool
deriving DecidableEq

/-- `handlers.FrontendHabit` as decoded from the request body (the `goal`
JSON number arrives as a binary64; short decimals round-trip, so the
`decimal.NewFromFloat` conversion is value-preserving here). -/
structure FrontendHabitReq where
  name : String
  unit : String
  goal : Rat
deriving DecidableEq

/-- The HTTP error responses the creation handler can produce. -/
inductive HttpError where
  | badRequest
  | internalServerError
deriving DecidableEq

/-- `handlers.go`, `handleHabitCreateAPI` (authenticated path): reject an
empty name, otherwise build the `models.Habit` with hard-coded
`Agg: models.AggSum`, `Period: models.PeriodDaily`, `WeekStartDOW: 1`,
`MonthAnchorDay: 1`, `AnchorDate: time.Now()` and store it. -/
def handleHabitCreateAPI (userId : Int) (now : Int) (req : FrontendHabitReq) :
    Except HttpError HabitGo :=
  if req.name = "" then Except.error HttpError.badRequest
  else Except.ok
    { userId := userId
      name := req.name
      unitLabel := if req.unit = "" then none else some req.unit
      agg := AggKind.sum
      targetPerPeriod := req.goal
      perLogDefaultQty := 1
      period := PeriodType.daily
      weekStartDOW := 1
      monthAnchorDay := 1
      rollingLenDays := none
      anchorDate := now
      isActive := true }

/-! ## The stored `local_day` of `repository.go`, `CreateHabitLog` -/

/-- The `local_day` column value computed by `CreateHabitLog`:
`req.OccurredAt.In(time.UTC).Format("2006-01-02")` (the comment in the
source reads `// Convert to local day`, yet the conversion is to UTC). -/
def createHabitLogLocalDay (occurredAt : Int) : Int :=
  dayOfWall (wallClock occurredAt utcLoc)

/-- The calendar day of an instant as observed in a given zone - the
local day in the sense of the specification glossary. -/
def localDayInZone (loc : Location) (t : Int) : Int :=
  dayOfWall (wallClock t loc)

/-! ## The rollup engine, modelled from the specification

Modelled from the spec: the repository ships no bucket-generation or
rollup implementation under `src/` - only the SQL schema (the
`rolling_len_days INT CHECK (rolling_len_days >= 1)` column) and the Go
model (`RollingLenDays sql.NullInt32`) declare the rolling
configuration, and the design notes say the original expressed rollup
as a SQL query.  The definitions below therefore follow the words of
spec sections 3, 4.1-4.4 and 7: `generateBuckets` per period kind,
`aggregate`, the progress ratio, and the `rollup` pipeline with its
fail-fast validation. -/

/-- Modelled from the spec (section 7): the engine error taxonomy. -/
inductive EngineError where
  | notFoundError
  | configurationError
  | timezoneError
deriving DecidableEq

/-- Modelled from the spec (section 3): a log entry consumed by the
engine. -/
structure SpecLogEntry where
  occurredAtUTC : Int
  quantity : Rat
deriving DecidableEq

/-- Modelled from the spec (section 3): the immutable habit
configuration snapshot. -/
structure HabitConfig where
  aggregationKind : AggKind
  targetPerPeriod : Rat
  periodKind : PeriodType
  weekStartDay : Int
  monthAnchorDay : Int
  rollingLengthDays : Option Int
  anchorDate : Int
  timezone : String
deriving DecidableEq

/-- Modelled from the spec (section 3): an output bucket. -/
structure SpecBucket where
  start : Int
  stop : Int
  value : Rat
  target : Rat
  progressRatio : Option Rat
deriving DecidableEq

/-- Modelled from the spec (section 4.3): `ratio(value, target)` is
`value / target`, or null when the target is zero. -/
def specProgressRatio (value target : Rat) : Option Rat :=
  if target = 0 then none else some (value / target)

/-- Modelled from the spec (section 4.2): the aggregation kinds. -/
def aggregate (kind : AggKind) (logsInBucket : List SpecLogEntry) : Rat :=
  match kind with
  | AggKind.sum => (logsInBucket.map SpecLogEntry.quantity).sum
  | AggKind.count => (logsInBucket.length : Rat)
  | AggKind.boolean => if 0 < logsInBucket.length then 1 else 0

/-- Proleptic Gregorian conversion, day index to `(year, month, day)`. -/
def civilFromDays (z0 : Int) : Int × Int × Int :=
  let z := z0 + 719468
  let era := Int.fdiv z 146097
  let doe := z - era * 146097
  let yoe := Int.fdiv
    (doe - Int.fdiv doe 1460 + Int.fdiv doe 36524 - Int.fdiv doe 146096) 365
  let y := yoe + era * 400
  let doy := doe - (365 * yoe + Int.fdiv yoe 4 - Int.fdiv yoe 100)
  let mp := Int.fdiv (5 * doy + 2) 153
  let d := doy - Int.fdiv (153 * mp + 2) 5 + 1
  let m := mp + (if mp < 10 then 3 else -9)
  (if m ≤ 2 then y + 1 else y, m, d)

/-- Proleptic Gregorian conversion, `(year, month, day)` to day index. -/
def daysFromCivil (y0 m d : Int) : Int :=
  let y := if m ≤ 2 then y0 - 1 else y0
  let era := Int.fdiv y 400
  let yoe := y - era * 400
  let mp := Int.emod (m + 9) 12
  let doy := Int.fdiv (153 * mp + 2) 5 + d - 1
  let doe := yoe * 365 + Int.fdiv yoe 4 - Int.fdiv yoe 100 + doy
  era * 146097 + doe - 719468

/-- The month counter of a day: `12 * year + (month - 1)`. -/
def monthIndex (day : Int) : Int :=
  let c := civilFromDays day
  c.1 * 12 + (c.2.1 - 1)

/-- The first day of the month with the given month counter. -/
def firstOfMonthIndex (idx : Int) : Int :=
  daysFromCivil (Int.fdiv idx 12) (Int.emod idx 12 + 1) 1

/-- The day of week of a day index, `0 = Sunday` (1970-01-01 was a
Thursday). -/
def dayOfWeekSpec (d : Int) : Int := Int.emod (d + 4) 7

/-- Modelled from the spec (section 4.1, Weekly): the most recent local
day matching `weekStartDay` at or before `d`. -/
def weekStartOnOrBefore (weekStartDay d : Int) : Int :=
  d - Int.emod (dayOfWeekSpec d - weekStartDay) 7

/-- Modelled from the spec (section 4.1): the UTC instant of local
midnight of a local day in a zone. -/
def localMidnightUTC (loc : Location) (d : Int) : Int :=
  d * 1440 - loc.offsetMinutes

/-- Modelled from the spec (section 4.1): the local-day boundary pairs
of each period kind, covering the local days `dS` to `dE`. -/
def calendarDayBounds (pk : PeriodType) (weekStartDay anchorDate len dS dE : Int) :
    List (Int × Int) :=
  match pk with
  | PeriodType.daily =>
    (List.range (dE - dS + 1).toNat).map
      (fun k : Nat => (dS + (k : Int), dS + (k : Int) + 1))
  | PeriodType.weekly =>
    let w0 := weekStartOnOrBefore weekStartDay dS
    (List.range (Int.fdiv (dE - w0) 7 + 1).toNat).map
      (fun k : Nat => (w0 + 7 * (k : Int), w0 + 7 * ((k : Int) + 1)))
  | PeriodType.monthly =>
    let i0 := monthIndex dS
    (List.range (monthIndex dE - i0 + 1).toNat).map
      (fun k : Nat => (firstOfMonthIndex (i0 + (k : Int)),
                       firstOfMonthIndex (i0 + (k : Int) + 1)))
  | PeriodType.rolling =>
    let k0 := Int.fdiv (dS - anchorDate) len
    let kE := Int.fdiv (dE - anchorDate) len
    (List.range (kE - k0 + 1).toNat).map
      (fun k : Nat => (anchorDate + (k0 + (k : Int)) * len,
                       anchorDate + (k0 + (k : Int) + 1) * len))

/-- Modelled from the spec (sections 4.1 and 7): bucket boundaries as
UTC instants; a rolling configuration with an absent or non-positive
length is a `ConfigurationError`, an unresolvable timezone a
`TimezoneError`, and neither is ever silently defaulted. -/
def generateBuckets (db : String → Option Location) (c : HabitConfig)
    (rangeStart rangeEnd : Int) : Except EngineError (List (Int × Int)) :=
  match c.periodKind, c.rollingLengthDays with
  | PeriodType.rolling, none => Except.error EngineError.configurationError
  | PeriodType.rolling, some len =>
    if len < 1 then Except.error EngineError.configurationError
    else
      match db c.timezone with
      | none => Except.error EngineError.timezoneError
      | some loc =>
        let dS := localDayInZone loc rangeStart
        let dE := localDayInZone loc rangeEnd
        Except.ok ((calendarDayBounds PeriodType.rolling c.weekStartDay
            c.anchorDate len dS dE).map
          (fun b => (localMidnightUTC loc b.1, localMidnightUTC loc b.2)))
  | pk, _ =>
    match db c.timezone with
    | none => Except.error EngineError.timezoneError
    | some loc =>
      let dS := localDayInZone loc rangeStart
      let dE := localDayInZone loc rangeEnd
      Except.ok ((calendarDayBounds pk c.weekStartDay
          c.anchorDate 1 dS dE).map
        (fun b => (localMidnightUTC loc b.1, localMidnightUTC loc b.2)))

/-- Modelled from the spec (section 4.4): the rollup pipeline - validate
and compute boundaries, partition the logs, aggregate, attach the
progress ratio. -/
def rollup (db : String → Option Location) (c : HabitConfig)
    (logs : List SpecLogEntry) (rangeStart rangeEnd : Int) :
    Except EngineError (List SpecBucket) := do
  let bounds ← generateBuckets db c rangeStart rangeEnd
  Except.ok (bounds.map (fun b =>
    let inBucket := logs.filter
      (fun l => decide (b.1 ≤ l.occurredAtUTC) && decide (l.occurredAtUTC < b.2))
    let v := aggregate c.aggregationKind inBucket
    { start := b.1, stop := b.2, value := v, target := c.targetPerPeriod,
      progressRatio := specProgressRatio v c.targetPerPeriod }))

/-- The SQL `CHECK (rolling_len_days >= 1)` of the `habit` table: a
`NULL` value passes a SQL check constraint. -/
def sqlCheckRollingLenDays (v : Option Int) : Bool :=
  match v with
  | none => true
  | some n => decide (1 ≤ n)

/-! ## Claims C1 and C2: gap-filling and bucket coverage -/

/-- C1: gap-filling is mandatory.  For every habit filter, every browser
zone shift, every requested window of `days` day buckets and every log
set, the bucket of each local day `d` of the window appears among the
keys emitted by `totalsByDate`, and when no matching log falls on that
bucket its aggregated value is 0. -/
theorem C1_gap_fill_mandatory (tzShift today : Int) (days : Nat)
    (habitId : Option String) (logs : List JsLog) (d : Int)
    (h1 : today - (days : Int) + 1 ≤ d) (h2 : d ≤ today)
    (h3 : ∀ l ∈ logs, matchesHabit habitId l = true → l.dateKey ≠ d + tzShift) :
    (d + tzShift) ∈ totalsLabels tzShift today days habitId logs ∧
    mapGet (totalsMap tzShift today days habitId logs) (d + tzShift) = 0 := by
  constructor
  · rw [totalsLabels_eq]
    have hnn : 0 ≤ d - (today - (days : Int) + 1) := by omega
    refine List.mem_map.mpr ⟨(d - (today - (days : Int) + 1)).toNat, ?_, ?_⟩
    · refine List.mem_range.mpr ?_
      omega
    · have hcast : ((d - (today - (days : Int) + 1)).toNat : Int)
          = d - (today - (days : Int) + 1) := Int.toNat_of_nonneg hnn
      omega
  · unfold totalsMap
    have hcond : ∀ l ∈ logs.filter (matchesHabit habitId),
        l.dateKey ≠ d + tzShift := by
      intro l hl
      have hm := List.mem_filter.mp hl
      exact h3 l hm.1 hm.2
    rw [mapGet_foldl_logStep _ _ _ hcond, seeded_eq, mapGet_seeded]

/-- C1 witness: a concrete window of 3 days ending at day 10, one log on
day 9; the bucket of day 10 is present and reads 0. -/
theorem C1_gap_fill_mandatory_witness :
    ((10 : Int) + 0) ∈ totalsLabels 0 10 3 none [⟨"1", 9, 5⟩] ∧
    mapGet (totalsMap 0 10 3 none [⟨"1", 9, 5⟩]) (10 + 0) = 0 :=
  C1_gap_fill_mandatory 0 10 3 none [⟨"1", 9, 5⟩] 10
    (by norm_num) (by norm_num)
    (by intro l hl _; simp at hl; rw [hl]; norm_num)

/-- C2: the day buckets of `totalsByDate` form a contiguous,
non-overlapping sequence of exactly `days` consecutive keys covering the
requested window: the labels are the arithmetic progression starting at
`today - days + 1 + tzShift`, adjacent labels differ by exactly 1 (so
the end of day bucket `i`, `label i + 1`, is the start of bucket `i+1`),
there is no duplicate, the first label is the shifted requested start
and the last label the shifted requested end. -/
theorem C2_buckets_contiguous_cover (tzShift today : Int) (days : Nat)
    (habitId : Option String) (logs : List JsLog) (i : Nat)
    (hi : i + 1 < days) :
    totalsLabels tzShift today days habitId logs
      = (List.range days).map
          (fun j : Nat => today - (days : Int) + 1 + tzShift + (j : Int)) ∧
    (totalsLabels tzShift today days habitId logs).length = days ∧
    (totalsLabels tzShift today days habitId logs).Nodup ∧
    (totalsLabels tzShift today days habitId logs).get? i
      = some (today - (days : Int) + 1 + tzShift + (i : Int)) ∧
    (totalsLabels tzShift today days habitId logs).get? (i + 1)
      = some (today - (days : Int) + 1 + tzShift + (i : Int) + 1) ∧
    (totalsLabels tzShift today days habitId logs).get? 0
      = some (today - (days : Int) + 1 + tzShift) ∧
    (totalsLabels tzShift today days habitId logs).get? (days - 1)
      = some (today + tzShift) := by
  have heq := totalsLabels_eq tzShift today days habitId logs
  have hget : ∀ j : Nat, j < days →
      (totalsLabels tzShift today days habitId logs).get? j
        = some (today - (days : Int) + 1 + tzShift + (j : Int)) := by
    intro j hj
    rw [heq, List.get?_map, List.get?_range hj]
    rfl
  refine ⟨heq, ?_, ?_, hget i (by omega), ?_, ?_, ?_⟩
  · rw [heq]; simp
  · rw [heq]
    refine (List.nodup_range days).map_on ?_
    intro a _ b _ hab
    omega
  · have := hget (i + 1) (by omega)
    rw [this]
    congr 1
    push_cast
    ring
  · have h0 : 0 < days := by omega
    have := hget 0 h0
    rw [this]
    norm_num
  · have hlt : days - 1 < days := by omega
    have := hget (days - 1) hlt
    rw [this]
    congr 1
    have : ((days - 1 : Nat) : Int) = (days : Int) - 1 := by omega
    rw [this]
    ring

/-- C2 witness: the window of 3 days ending at day 10, zone shift 0, no
logs, adjacent pair at index 0. -/
theorem C2_buckets_contiguous_cover_witness :
    totalsLabels 0 10 3 none []
      = (List.range 3).map (fun j : Nat => 10 - (3 : Int) + 1 + 0 + (j : Int)) ∧
    (totalsLabels 0 10 3 none []).length = 3 ∧
    (totalsLabels 0 10 3 none []).Nodup ∧
    (totalsLabels 0 10 3 none []).get? 0 = some (10 - (3 : Int) + 1 + 0 + (0 : Int)) ∧
    (totalsLabels 0 10 3 none []).get? (0 + 1)
      = some (10 - (3 : Int) + 1 + 0 + (0 : Int) + 1) ∧
    (totalsLabels 0 10 3 none []).get? 0 = some (10 - (3 : Int) + 1 + 0) ∧
    (totalsLabels 0 10 3 none []).get? (3 - 1) = some (10 + 0) :=
  C2_buckets_contiguous_cover 0 10 3 none [] 0 (by norm_num)

/-! ## Claims C3, C4, C5: progress ratio and numeric aggregation -/

set_option maxRecDepth 10000 in
unseal Rat.add Rat.mul Rat.inv Rat.sub in
/-- C3 counterexample: at value 5 and target 0 the specified ratio is
null, but `renderOverview` computes the number 0 and `renderHabits`
(dividing by the substituted 1) the number 100 - the code never yields
null. -/
theorem C3_zero_target_counterexample :
    specProgressRatio 5 0 = none ∧ pctOverview 5 0 = 0 ∧
    habitBarWidth 5 0 = 100 := by
  refine ⟨rfl, by decide, by decide⟩

/-- C3 (amended): when the target is 0 the code never yields a null
ratio: `renderOverview` shows the number 0 regardless of the value, and
`renderHabits` substitutes divisor 1, so the bar width is
`min(100, value * 100)` (stated for integer values up to `2^40`, where
the float arithmetic is exact). -/
theorem C3_zero_target_amended (n : Nat) (hn : (n : Rat) ≤ 2 ^ 40) :
    pctOverview (n : Rat) 0 = 0 ∧
    habitBarWidth (n : Rat) 0 = min 100 ((n : Rat) * 100) ∧
    specProgressRatio (n : Rat) 0 = none := by
  refine ⟨by simp [pctOverview], ?_, rfl⟩
  unfold habitBarWidth
  rw [if_pos rfl]
  have h53 : (n : Rat) < 2 ^ 53 := lt_of_le_of_lt hn (by norm_num)
  have hdiv : jsDiv (n : Rat) 1 = (n : Rat) := by
    unfold jsDiv
    rw [div_one]
    exact toFloat64_nat n h53
  rw [hdiv]
  have hcast : (n : Rat) * 100 = ((n * 100 : Nat) : Rat) := by push_cast; ring
  have hmul : jsMul (n : Rat) 100 = (n : Rat) * 100 := by
    unfold jsMul
    rw [hcast]
    refine toFloat64_nat (n * 100) ?_
    rw [← hcast]
    nlinarith
  rw [hmul]

set_option maxRecDepth 10000 in
unseal Rat.add Rat.mul Rat.inv Rat.sub in
/-- C3 witness: the amended statement at value 5. -/
theorem C3_zero_target_amended_witness :
    pctOverview ((5 : Nat) : Rat) 0 = 0 ∧
    habitBarWidth ((5 : Nat) : Rat) 0 = min 100 (((5 : Nat) : Rat) * 100) ∧
    specProgressRatio ((5 : Nat) : Rat) 0 = none :=
  C3_zero_target_amended 5 (by norm_num)

set_option maxRecDepth 10000 in
unseal Rat.add Rat.mul Rat.inv Rat.sub in
/-- C4 counterexample: value 65 against target 60: the specified ratio
is 65/60 (about 1.0833, percentage about 108.33), but the code computes
the clamped percentage 100. -/
theorem C4_not_clamped_counterexample :
    pctOverview 65 60 = 100 ∧ specProgressRatio 65 60 = some (65 / 60) ∧
    (65 : Rat) / 60 * 100 ≠ 100 := by
  refine ⟨by decide, by decide, by norm_num⟩

/-- C4 (amended): the progress percentage IS clamped above at 100 by
both `renderOverview` and `renderHabits` (`Math.min(100, ...)`), and it
equals the unclamped float percentage only below the clamp. -/
theorem C4_ratio_clamped_amended (v g : Rat) (hg : g ≠ 0)
    (hlt : jsMul (jsDiv v g) 100 < 100) :
    pctOverview v g ≤ 100 ∧ habitBarWidth v g ≤ 100 ∧
    pctOverview v g = jsMul (jsDiv v g) 100 := by
  refine ⟨?_, ?_, ?_⟩
  · unfold pctOverview
    rw [if_neg hg]
    exact min_le_left _ _
  · unfold habitBarWidth
    exact min_le_left _ _
  · unfold pctOverview
    rw [if_neg hg]
    exact min_eq_right (le_of_lt hlt)

set_option maxRecDepth 10000 in
unseal Rat.add Rat.mul Rat.inv Rat.sub in
/-- C4 witness: value 1 against target 2 sits below the clamp; the
percentage is the exact 50. -/
theorem C4_ratio_clamped_amended_witness :
    pctOverview 1 2 ≤ 100 ∧ habitBarWidth 1 2 ≤ 100 ∧
    pctOverview 1 2 = jsMul (jsDiv 1 2) 100 :=
  C4_ratio_clamped_amended 1 2 (by norm_num) (by decide)

set_option maxRecDepth 10000 in
unseal Rat.add Rat.mul Rat.inv Rat.sub in
/-- C5 counterexample: two logs of decimal quantities 0.1 and 0.2
(converted to binary64 by the handlers) on the selected day: the value
computed by `sumToday` differs from the exact decimal sum 0.3. -/
theorem C5_decimal_sum_counterexample :
    sumToday [⟨"1", 0, toFloat64 (1 / 10)⟩, ⟨"1", 0, toFloat64 (2 / 10)⟩]
        (some "1") 0
      ≠ 1 / 10 + 2 / 10 := by
  decide

/-- C5 (amended): Sum aggregation is binary64 float arithmetic, not
decimal: quantities reach the browser through `Float64()` and are summed
with JavaScript number addition, which can drift from the exact decimal
sum (see the counterexample).  The empty log set still sums to 0, and
for integer quantities whose total stays below `2^53` the float sum is
exact. -/
theorem C5_sum_float64_amended (logs : List JsLog) (habitId : Option String)
    (today : Int)
    (hnat : ∀ l ∈ logs, ∃ n : Nat, l.qty = (n : Rat))
    (hbound : ((logs.filter
        (fun l => matchesHabit habitId l && (l.dateKey == today))).map
          JsLog.qty).sum < 2 ^ 53) :
    sumToday [] habitId today = 0 ∧
    sumToday logs habitId today
      = ((logs.filter
          (fun l => matchesHabit habitId l && (l.dateKey == today))).map
            JsLog.qty).sum := by
  constructor
  · rfl
  · unfold sumToday
    have hq : ∀ l ∈ logs.filter
        (fun l => matchesHabit habitId l && (l.dateKey == today)),
        ∃ n : Nat, l.qty = (n : Rat) := by
      intro l hl
      exact hnat l (List.mem_filter.mp hl).1
    have hb : (0 : Rat) + ((logs.filter
        (fun l => matchesHabit habitId l && (l.dateKey == today))).map
          JsLog.qty).sum < 2 ^ 53 := by
      simpa using hbound
    have hfold := foldl_jsAdd_nat
      (logs.filter (fun l => matchesHabit habitId l && (l.dateKey == today)))
      0 ⟨0, by norm_num⟩ hq hb
    rw [hfold]
    ring

set_option maxRecDepth 10000 in
unseal Rat.add Rat.mul Rat.inv Rat.sub in
/-- C5 witness: integer quantities 2 and 3 on the selected day sum to
exactly 5. -/
theorem C5_sum_float64_amended_witness :
    sumToday [] (some "1") 0 = 0 ∧
    sumToday [⟨"1", 0, 2⟩, ⟨"1", 0, 3⟩] (some "1") 0
      = ((([⟨"1", 0, 2⟩, ⟨"1", 0, 3⟩] : List JsLog).filter
          (fun l => matchesHabit (some "1") l && (l.dateKey == 0))).map
            JsLog.qty).sum :=
  C5_sum_float64_amended [⟨"1", 0, 2⟩, ⟨"1", 0, 3⟩] (some "1") 0
    (by
      intro l hl
      simp only [List.mem_cons, List.not_mem_nil, or_false] at hl
      rcases hl with h | h
      · exact ⟨2, by rw [h]; norm_num⟩
      · exact ⟨3, by rw [h]; norm_num⟩)
    (by decide)

/-! ## Claims C6 and C7: timezone resolution and the stored local day -/

/-- C6 counterexample: with a timezone database on which the name does
not resolve, `currentDateTimeInTZ` returns the local-zone rendering (a
plain value, no error), while the specified engine fails with a
`TimezoneError` for the same database and name. -/
theorem C6_timezone_fallback_counterexample :
    currentDateTimeInTZ (fun _ => none) ⟨-300⟩ 1000 "Not/AZone"
      = wallClock 1000 ⟨-300⟩ ∧
    generateBuckets (fun _ => none)
      { aggregationKind := AggKind.sum, targetPerPeriod := 1,
        periodKind := PeriodType.daily, weekStartDay := 1, monthAnchorDay := 1,
        rollingLengthDays := none, anchorDate := 0, timezone := "Not/AZone" }
      0 1440 = Except.error EngineError.timezoneError :=
  ⟨rfl, rfl⟩

/-- C6 (amended): an unresolvable timezone identifier is not an error in
the code: `currentDateTimeInTZ` silently falls back to the server local
zone and returns its rendering of the current instant (the API log
handlers instead discard the resolution error and keep a nil location,
see C10). -/
theorem C6_timezone_fallback_amended (db : String → Option Location)
    (localZone : Location) (now : Int) (tzName : String)
    (hfail : db tzName = none) :
    currentDateTimeInTZ db localZone now tzName = wallClock now localZone := by
  unfold currentDateTimeInTZ
  rw [hfail]

/-- C6 witness: the amended statement on a concrete failing database. -/
theorem C6_timezone_fallback_amended_witness :
    currentDateTimeInTZ (fun _ => none) ⟨120⟩ 5000 "Mars/Olympus"
      = wallClock 5000 ⟨120⟩ :=
  C6_timezone_fallback_amended (fun _ => none) ⟨120⟩ 5000 "Mars/Olympus" rfl

/-- C7: `CreateHabitLog` stores as `local_day` the UTC calendar date of
the instant (`OccurredAt.In(time.UTC).Format("2006-01-02")`), not the
local day, although its own comment reads `Convert to local day`.  At
2025-01-02T01:00 UTC (minute `20090 * 1440 + 60`) with the
America/Toronto winter offset of -300 minutes, the code stores day
20090 (2025-01-02) while the local day is 20089 (2025-01-01). -/
theorem C7_local_day_uses_utc :
    createHabitLogLocalDay (20090 * 1440 + 60) = 20090 ∧
    localDayInZone ⟨-300⟩ (20090 * 1440 + 60) = 20089 ∧
    createHabitLogLocalDay (20090 * 1440 + 60)
      ≠ localDayInZone ⟨-300⟩ (20090 * 1440 + 60) := by
  refine ⟨by decide, by decide, by decide⟩

/-! ## Claims C8, C9, C10: validation, creation defaults, totality -/

/-- The SQL `CHECK` on `rolling_len_days` rejects a non-positive length
but admits the absent (`NULL`) one, so only an engine-side check can
reject an absent rolling length. -/
theorem sqlCheck_admits_null :
    sqlCheckRollingLenDays none = true ∧
    sqlCheckRollingLenDays (some 0) = false := by
  decide

/-- C8: a Rolling configuration whose `rollingLengthDays` is absent or
smaller than 1 makes `rollup` fail with a `ConfigurationError` for
every log set and range: no bucket is produced, no default length is
substituted, and the failure does not depend on the logs. -/
theorem C8_rolling_validation (db : String → Option Location)
    (c : HabitConfig) (logs : List SpecLogEntry) (rangeStart rangeEnd : Int)
    (hroll : c.periodKind = PeriodType.rolling)
    (hbad : c.rollingLengthDays = none ∨
      ∃ n, c.rollingLengthDays = some n ∧ n < 1) :
    rollup db c logs rangeStart rangeEnd
      = Except.error EngineError.configurationError ∧
    generateBuckets db c rangeStart rangeEnd
      = Except.error EngineError.configurationError := by
  have hgen : generateBuckets db c rangeStart rangeEnd
      = Except.error EngineError.configurationError := by
    unfold generateBuckets
    rcases hbad with hnone | ⟨n, hsome, hlt⟩
    · rw [hroll, hnone]
    · rw [hroll, hsome]
      simp [hlt]
  refine ⟨?_, hgen⟩
  unfold rollup
  rw [hgen]
  rfl

/-- C8 witness: the concrete spec failure scenario - a rolling Sum habit
with the length unset. -/
theorem C8_rolling_validation_witness :
    rollup (fun _ => some ⟨-300⟩)
      { aggregationKind := AggKind.sum, targetPerPeriod := 14,
        periodKind := PeriodType.rolling, weekStartDay := 1,
        monthAnchorDay := 1, rollingLengthDays := none, anchorDate := 0,
        timezone := "America/Toronto" } [] 0 10080
      = Except.error EngineError.configurationError ∧
    generateBuckets (fun _ => some ⟨-300⟩)
      { aggregationKind := AggKind.sum, targetPerPeriod := 14,
        periodKind := PeriodType.rolling, weekStartDay := 1,
        monthAnchorDay := 1, rollingLengthDays := none, anchorDate := 0,
        timezone := "America/Toronto" } 0 10080
      = Except.error EngineError.configurationError :=
  C8_rolling_validation (fun _ => some ⟨-300⟩) _ [] 0 10080 rfl (Or.inl rfl)

/-- C9: every habit the HTTP creation endpoint accepts is a daily Sum
habit with `WeekStartDOW = 1`, `MonthAnchorDay = 1`, no rolling length
and anchor date the current instant, regardless of the request body -
no Weekly, Monthly, Rolling, Count or Boolean habit can be created
through it. -/
theorem C9_create_always_daily_sum (userId now : Int) (req : FrontendHabitReq)
    (h : HabitGo) (hok : handleHabitCreateAPI userId now req = Except.ok h) :
    h.agg = AggKind.sum ∧ h.period = PeriodType.daily ∧
    h.weekStartDOW = 1 ∧ h.monthAnchorDay = 1 ∧
    h.rollingLenDays = none ∧ h.anchorDate = now := by
  unfold handleHabitCreateAPI at hok
  by_cases hname : req.name = ""
  · rw [if_pos hname] at hok
    exact absurd hok (by simp)
  · rw [if_neg hname] at hok
    have := (Except.ok.injEq _ _).mp hok
    subst this
    exact ⟨rfl, rfl, rfl, rfl, rfl, rfl⟩

/-- The habit produced by a concrete creation request. -/
def sampleCreatedHabit : HabitGo :=
  { userId := 1, name := "run", unitLabel := some "km", agg := AggKind.sum,
    targetPerPeriod := 5, perLogDefaultQty := 1, period := PeriodType.daily,
    weekStartDOW := 1, monthAnchorDay := 1, rollingLenDays := none,
    anchorDate := 0, isActive := true }

/-- C9 witness: a concrete request (name `run`, unit `km`, goal 5). -/
theorem C9_create_always_daily_sum_witness :
    sampleCreatedHabit.agg = AggKind.sum ∧
    sampleCreatedHabit.period = PeriodType.daily ∧
    sampleCreatedHabit.weekStartDOW = 1 ∧
    sampleCreatedHabit.monthAnchorDay = 1 ∧
    sampleCreatedHabit.rollingLenDays = none ∧
    sampleCreatedHabit.anchorDate = 0 :=
  C9_create_always_daily_sum 1 0 ⟨"run", "km", 5⟩ sampleCreatedHabit rfl

/-- C10: when the stored user timezone fails to resolve, the log
handlers proceed with the nil location left by the discarded
`time.LoadLocation` error and panic: the list handler on the first log
it converts (`OccurredAt.In(nil)`), the create handler in
`time.ParseInLocation`; neither code path is total. -/
theorem C10_nil_location_panics (db : String → Option Location)
    (userTz : String) (l0 : HabitLogGo) (rest : List HabitLogGo)
    (reqHabitId reqDateWall : Int) (reqQty : Rat) (newId : Int)
    (hfail : db userTz = none) :
    handleLogsListAPI db userTz (l0 :: rest)
      = Except.error GoPanic.missingLocation ∧
    handleLogCreateAPI db userTz reqHabitId reqDateWall reqQty newId
      = Except.error GoPanic.missingLocation := by
  constructor
  · unfold handleLogsListAPI
    rw [hfail]
    rfl
  · unfold handleLogCreateAPI
    rw [hfail]
    rfl

/-- C10 witness: a concrete unresolvable zone, one stored log and a
concrete creation request. -/
theorem C10_nil_location_panics_witness :
    handleLogsListAPI (fun _ => none) "Mars/Olympus" [⟨1, 1, 0, 1⟩]
      = Except.error GoPanic.missingLocation ∧
    handleLogCreateAPI (fun _ => none) "Mars/Olympus" 1 600 1 2
      = Except.error GoPanic.missingLocation :=
  C10_nil_location_panics (fun _ => none) "Mars/Olympus" ⟨1, 1, 0, 1⟩ []
    1 600 1 2 rfl

/-! ## Sanity checks of the modelled engine against the spec scenarios -/

set_option maxRecDepth 10000 in
unseal Rat.add Rat.mul Rat.inv Rat.sub in
/-- Spec example scenario 1: a daily Sum habit with target 60 in a zone
of offset -300 minutes; logs of 45 and 65 minutes on days 1 and 2 of a
three-day range yield buckets of value 45 (ratio 3/4), 65 (ratio 13/12,
unclamped) and 0 (ratio 0), each spanning one local day converted to
UTC instants. -/
theorem rollup_daily_scenario :
    rollup (fun _ => some ⟨-300⟩)
      { aggregationKind := AggKind.sum, targetPerPeriod := 60,
        periodKind := PeriodType.daily, weekStartDay := 1, monthAnchorDay := 1,
        rollingLengthDays := none, anchorDate := 0,
        timezone := "America/Toronto" }
      [⟨300 + 600, 45⟩, ⟨1440 + 300 + 600, 65⟩]
      300 (2 * 1440 + 300)
      = Except.ok
        [⟨300, 1740, 45, 60, some (3 / 4)⟩,
         ⟨1740, 3180, 65, 60, some (13 / 12)⟩,
         ⟨3180, 4620, 0, 60, some 0⟩] := by
  rfl

set_option maxRecDepth 10000 in
unseal Rat.add Rat.mul Rat.inv Rat.sub in
/-- Spec example scenario 3: a rolling Sum habit of length 7 anchored at
day 0, seven logs of 2 liters across the first cycle: one bucket
spanning the whole cycle with value 14 and ratio 1. -/
theorem rollup_rolling_scenario :
    rollup (fun _ => some ⟨0⟩)
      { aggregationKind := AggKind.sum, targetPerPeriod := 14,
        periodKind := PeriodType.rolling, weekStartDay := 1,
        monthAnchorDay := 1, rollingLengthDays := some 7, anchorDate := 0,
        timezone := "UTC" }
      ((List.range 7).map (fun i => ⟨(i : Int) * 1440 + 60, 2⟩))
      0 (6 * 1440 + 600)
      = Except.ok [⟨0, 10080, 14, 14, some 1⟩] := by
  rfl
